import Mathlib

/-!
Verification development for the Comarfin backend (`src/app.py`).

The file shallowly embeds the pure core of the program:

* `calculate_cuil` (app.py lines 51-112): derivation of an 11-digit CUIL/CUIT
  tax identifier from a national ID (DNI) and a gender string;
* the `/check_score` response normalisation (app.py lines 149-195);
* the `/check_history` response normalisation (app.py lines 220-263);
* the `/check_afip` response normalisation (app.py lines 303-426).

Python strings are embedded as `List Char`; Python `int` as `Int`/`Nat`;
Python floats and pandas numeric columns as exact rationals `ℚ`; a Python
function that can raise an exception returns an explicit error constructor.
-/

namespace Comarfin

/-! ## Python string primitives -/

/-- Whitespace characters removed by Python's `str.strip()` (ASCII range). -/
def isPySpace (c : Char) : Bool :=
  c = ' ' || c = '\t' || c = '\n' || c = '\r' || c = '\x0B' || c = '\x0C'

/-- Model of Python `str.strip()`: drop leading and trailing whitespace. -/
def pyStrip (s : List Char) : List Char :=
  ((s.dropWhile isPySpace).reverse.dropWhile isPySpace).reverse

/-- Model of Python `str.upper()` on one character: ASCII letters plus the
accented Spanish letters that occur in the source's string comparisons. -/
def pyUpperChar (c : Char) : Char :=
  if c = 'á' then 'Á' else if c = 'é' then 'É' else if c = 'í' then 'Í'
  else if c = 'ó' then 'Ó' else if c = 'ú' then 'Ú' else if c = 'ñ' then 'Ñ'
  else if c = 'ü' then 'Ü' else c.toUpper

/-- Model of Python `str.upper()`. -/
def pyUpper (s : List Char) : List Char := s.map pyUpperChar

/-- Model of Python `int(c)` on a single character: its value if it is a
decimal digit, `none` (a `ValueError`) otherwise. -/
def pyIntDigit? (c : Char) : Option Nat :=
  if c.isDigit then some (c.toNat - 48) else none

/-- Value of a list of decimal digit characters, most significant first. -/
def natOfDigits (s : List Char) : Nat :=
  s.foldl (fun a c => 10 * a + (c.toNat - 48)) 0

/-- Model of Python `int(s)` on a string: strip whitespace, allow one sign,
then require a non-empty run of decimal digits; `none` models `ValueError`. -/
def pyIntOfStr? (s : List Char) : Option Int :=
  match pyStrip s with
  | '+' :: r => if r ≠ [] ∧ r.all Char.isDigit then some (natOfDigits r) else none
  | '-' :: r => if r ≠ [] ∧ r.all Char.isDigit then some (-(natOfDigits r : Int)) else none
  | r => if r ≠ [] ∧ r.all Char.isDigit then some (natOfDigits r) else none

/-- Decimal rendering of an integer, as Python `str(i)` produces it. -/
def intStr (i : Int) : List Char :=
  if i < 0 then '-' :: Nat.toDigits 10 i.natAbs else Nat.toDigits 10 i.natAbs

/-! ## Identifier derivation (`calculate_cuil`, app.py lines 51-112) -/

/-- Result of `calculate_cuil`: the Python function returns `None`
(`invalid`), returns a string (`taxId`), or raises `ValueError` (`exn`). -/
inductive CuilResult where
  | invalid : CuilResult
  | exn : CuilResult
  | taxId : List Char → CuilResult
deriving DecidableEq

/-- The fixed weight sequence `multipliers = [5, 4, 3, 2, 7, 6, 5, 4, 3, 2]`
from app.py line 87. -/
def multipliers : List Nat := [5, 4, 3, 2, 7, 6, 5, 4, 3, 2]

/-- The checksum accumulation loop of app.py lines 88-90: walk the weight
list, converting each corresponding character of `base` with `int(...)`;
`none` models the `ValueError` raised on a non-digit character (an index
past the end of `base` would likewise raise, hence also `none`). -/
def calcTotal : List Char → List Nat → Option Nat
  | _, [] => some 0
  | [], _ :: _ => none
  | c :: cs, m :: ms =>
    match pyIntDigit? c, calcTotal cs ms with
    | some d, some t => some (d * m + t)
    | _, _ => none

/-- Check digit before normalisation (app.py lines 92-93):
`remainder = total % 11; check_digit = 11 - remainder`. -/
def rawCheck (base : List Char) : Option Nat :=
  (calcTotal base multipliers).map (fun t => 11 - t % 11)

/-- Normalisation of app.py line 95/109: a check digit of 11 becomes 0. -/
def norm11 (c : Nat) : Nat := if c = 11 then 0 else c

/-- Shallow embedding of `calculate_cuil(dni, gender)` (app.py lines 51-112). -/
def calculate_cuil (dni0 g0 : List Char) : CuilResult :=
  if dni0 = [] ∨ g0 = [] then .invalid
  else
    let dni := pyStrip dni0
    let g := pyUpper g0
    if 8 < dni.length ∨ dni.length < 7 then
      if dni.length = 11 then .taxId dni else .invalid
    else
      let dni8 := List.replicate (8 - dni.length) '0' ++ dni
      let pfx := if g = ['M'] then ['2', '0']
                 else if g = ['F'] then ['2', '7']
                 else ['2', '3']
      match rawCheck (pfx ++ dni8) with
      | none => .exn
      | some c0 =>
        let c1 := norm11 c0
        if c1 = 10 ∧ (g = ['M'] ∨ g = ['F']) ∧ pfx ≠ ['2', '3'] then
          match rawCheck (['2', '3'] ++ dni8) with
          | none => .exn
          | some c2 => .taxId (['2', '3'] ++ dni8 ++ Nat.toDigits 10 (norm11 c2))
        else .taxId (pfx ++ dni8 ++ Nat.toDigits 10 c1)

/-! ## Dynamically typed cell values

The registry client hands the handlers pandas frames and dicts whose cells
are dynamically typed; `PyVal` covers the value shapes the normalisers
inspect (Python ints, floats — modelled as exact rationals — and strings). -/

inductive PyVal where
  | int (n : Int)
  | num (q : ℚ)
  | str (s : List Char)
deriving DecidableEq

/-- Truncation toward zero, as Python `int(float)` rounds. -/
def ratTrunc (q : ℚ) : Int := if 0 ≤ q then ⌊q⌋ else -⌊-q⌋

/-- Model of Python `int(v)` on a cell value; `none` models the raised
`ValueError`/`TypeError`. -/
def pyInt? : PyVal → Option Int
  | .int n => some n
  | .num q => some (ratTrunc q)
  | .str s => pyIntOfStr? s

/-- Whether a cell value is numeric (int or float). -/
def PyVal.isNum : PyVal → Bool
  | .int _ => true
  | .num _ => true
  | .str _ => false

/-- Numeric value of a cell; only meaningful under `isNum`. -/
def PyVal.toQ : PyVal → ℚ
  | .int n => (n : ℚ)
  | .num q => q
  | .str _ => 0

/-- Whether a cell value is a string. -/
def PyVal.isStr : PyVal → Bool
  | .str _ => true
  | _ => false

/-- String content of a cell; only meaningful under `isStr`. -/
def PyVal.strVal : PyVal → List Char
  | .str s => s
  | _ => []

/-- Python string comparison `a < b`: code-point lexicographic order. -/
def pyStrLt : List Char → List Char → Bool
  | [], [] => false
  | [], _ :: _ => true
  | _ :: _, [] => false
  | a :: as, b :: bs => if a = b then pyStrLt as bs else decide (a < b)

/-- Maximum of a non-empty batch of Python strings (head `s0`, tail `ss`)
under Python's `>` — the reduction pandas `.max()` performs on an
all-string object column. -/
def pyStrMax (s0 : List Char) (ss : List (List Char)) : List Char :=
  ss.foldl (fun acc s => if pyStrLt acc s then s else acc) s0

/-- Exponent suffix of a Python float literal: an empty suffix means
exponent 0; `e`/`E` followed by an optionally signed digit run; anything
else is a parse error (`none`). -/
def pyFloatExp? : List Char → Option Int
  | [] => some 0
  | c :: r =>
    if c = 'e' ∨ c = 'E' then
      match r with
      | '+' :: ds =>
        if ds ≠ [] ∧ ds.all Char.isDigit then some (natOfDigits ds) else none
      | '-' :: ds =>
        if ds ≠ [] ∧ ds.all Char.isDigit then some (-(natOfDigits ds : Int)) else none
      | ds =>
        if ds ≠ [] ∧ ds.all Char.isDigit then some (natOfDigits ds) else none
    else none

/-- Model of Python `float(s)`: strip whitespace, one optional sign, an
ASCII digit run with an optional decimal point and an optional exponent;
`none` models `ValueError`. The special values inf/nan (not representable
in ℚ) and digit-group underscores are outside the model. -/
def pyFloatOfStr? (s : List Char) : Option ℚ :=
  let t := pyStrip s
  let sg : ℚ := match t with
    | '-' :: _ => -1
    | _ => 1
  let r := match t with
    | '+' :: r => r
    | '-' :: r => r
    | r => r
  let ip := r.takeWhile Char.isDigit
  let r1 := r.dropWhile Char.isDigit
  match r1 with
  | '.' :: r2 =>
    let fp := r2.takeWhile Char.isDigit
    let r3 := r2.dropWhile Char.isDigit
    if ip = [] ∧ fp = [] then none
    else
      (pyFloatExp? r3).map (fun e =>
        sg * ((natOfDigits ip : ℚ) + (natOfDigits fp : ℚ) / (10 : ℚ) ^ fp.length) *
          (10 : ℚ) ^ e)
  | _ =>
    if ip = [] then none
    else (pyFloatExp? r1).map (fun e => sg * (natOfDigits ip : ℚ) * (10 : ℚ) ^ e)

/-- Model of Python `sep.join(list)`. -/
def pyJoin (sep : List Char) : List (List Char) → List Char
  | [] => []
  | [x] => x
  | x :: xs => x ++ sep ++ pyJoin sep xs

/-- Boolean test that `n` starts the list `h`. -/
def beginsWith : List Char → List Char → Bool
  | [], _ => true
  | _ :: _, [] => false
  | n :: ns, h :: hs => n = h && beginsWith ns hs

/-- Model of Python's substring operator `n in h`. -/
def containsSub (n : List Char) : List Char → Bool
  | [] => beginsWith n []
  | c :: hs => beginsWith n (c :: hs) || containsSub n hs

/-! ## Debt-status normalisation (`check_score`, app.py lines 149-195) -/

/-- One record of `result.to_dict(orient='records')`; the normaliser reads
only the `periodos_entidades_situacion` field (`none` = key absent). -/
structure ScoreRow where
  situacion? : Option PyVal
deriving DecidableEq

/-- The status dict pyBCRA returns on errors; the handler reads
`result.get('status', 0)` and `result.get('errorMessages', [])`. -/
structure BcraDict where
  status? : Option Int
  errorMessages? : Option (List (List Char))
deriving DecidableEq

/-- Shape of the debtor-registry response: a pandas frame, a status dict, or
anything else (app.py branches on `isinstance`). -/
inductive BcraScoreResponse where
  | frame (rows : List ScoreRow)
  | dict (d : BcraDict)
  | other (tyName : List Char)
deriving DecidableEq

/-- Detail string of an error response: `'; '.join(error_msgs)` when there
are messages, else `str(result)` (kept symbolic as `reprOfDict`). -/
inductive Details where
  | joined (s : List Char)
  | reprOfDict (d : BcraDict)
deriving DecidableEq

/-- Normalised `/check_score` outcome (JSON payloads reduced to the fields
the claims mention). -/
inductive ScoreResult where
  | noData
  | success (records : List ScoreRow) (summary : Int)
  | upstreamError (code : Int) (details : Details)
  | unexpectedShape (tyName : List Char)
deriving DecidableEq

/-- The `max_situation` loop of app.py lines 161-168: start at 0; for each
record take `int(record.get('periodos_entidades_situacion', 1))`, keep it if
larger; a parse failure is swallowed by the bare `except`. -/
def maxSituation (rows : List ScoreRow) : Int :=
  rows.foldl
    (fun acc r =>
      match pyInt? ((r.situacion?).getD (.int 1)) with
      | some sit => if acc < sit then sit else acc
      | none => acc)
    0

/-- Shallow embedding of the response classification of app.py
lines 149-195. -/
def check_score_norm : BcraScoreResponse → ScoreResult
  | .frame rows =>
    if rows = [] then .noData else .success rows (maxSituation rows)
  | .dict d =>
    let code := d.status?.getD 0
    if code = 404 then .noData
    else
      let msgs := d.errorMessages?.getD []
      .upstreamError code
        (if msgs ≠ [] then .joined (pyJoin "; ".data msgs) else .reprOfDict d)
  | .other t => .unexpectedShape t

/-- HTTP status attached to each outcome (200 is jsonify's default; the
error branches return `, 500`). -/
def scoreHttpStatus : ScoreResult → Nat
  | .noData => 200
  | .success _ _ => 200
  | .upstreamError _ _ => 500
  | .unexpectedShape _ => 500

/-! ## Debt-history normalisation (`check_history`, app.py lines 220-263) -/

/-- One row of the history frame: the period identifier (a YYYYMM integer),
the situation and amount cells, and the reporting entity (read by the spec's
data model, never by the code). -/
structure HistRow where
  period : Int
  situacion : PyVal
  monto : PyVal
  entidad : List Char
deriving DecidableEq

/-- One entry of the `history_summary` list built in app.py lines 252-257. -/
structure HistEntry where
  period : List Char
  worst_situation : Int
  total_debt : ℚ
  num_entities : Nat
deriving DecidableEq

/-- Normalised `/check_history` outcome. -/
inductive HistResult where
  | noHistory
  | success (history : List HistEntry)
deriving DecidableEq

/-- Pandas `column.max()` on an object column: the numeric maximum when
all cells are numeric, the lexicographic maximum when all cells are
strings (Python compares strings by code point), `none` when numeric and
string cells are mixed (pandas raises `TypeError`, which the source's
`try/except` turns into the default), and `none` for an empty column
(whose NaN maximum makes the subsequent `int(...)` raise). -/
def colMax? (vs : List PyVal) : Option PyVal :=
  match vs with
  | [] => none
  | v :: vt =>
    if (v :: vt).all PyVal.isNum then
      some (.num ((vt.map PyVal.toQ).foldl max v.toQ))
    else if (v :: vt).all PyVal.isStr then
      some (.str (pyStrMax v.strVal (vt.map PyVal.strVal)))
    else none

/-- Pandas `column.sum()` followed by `float(...)` (app.py line 241): the
exact sum when all cells are numeric (the empty column sums to 0); the
concatenation of the cells parsed by `float` when all cells are strings;
`none` when cell types are mixed (pandas raises `TypeError`) or the parse
fails — the source's `try/except` turns `none` into the default 0. -/
def colTotal? (vs : List PyVal) : Option ℚ :=
  if vs.all PyVal.isNum then some (vs.map PyVal.toQ).sum
  else if vs.all PyVal.isStr then
    pyFloatOfStr? ((vs.map PyVal.strVal).foldl (· ++ ·) [])
  else none

/-- The frame slice `result[result['periodos_periodo'] == period]`. -/
def rowsInPeriod (rows : List HistRow) (p : Int) : List HistRow :=
  rows.filter (fun r => r.period = p)

/-- Period formatting of app.py lines 249-250: `YYYYMM -> YYYY-MM` when
`str(period)` has exactly 6 characters, unchanged otherwise. -/
def formatPeriod (p : Int) : List Char :=
  let s := intStr p
  if s.length = 6 then s.take 4 ++ '-' :: s.drop 4 else s

/-- Loop body of app.py lines 228-257 for one period:
`int(column.max())` with the bare `except` defaulting to 0, `float(
column.sum())` likewise, and `len(period_data)`. -/
def periodSummary (rows : List HistRow) (p : Int) : HistEntry :=
  let pd := rowsInPeriod rows p
  { period := formatPeriod p
    worst_situation := ((colMax? (pd.map (·.situacion))).bind pyInt?).getD 0
    total_debt := (colTotal? (pd.map (·.monto))).getD 0
    num_entities := pd.length }

/-- The selection `sorted(result['periodos_periodo'].unique(),
reverse=True)[:6]` of app.py line 225: distinct periods, sorted most recent
first, first six. -/
def selectedPeriods (rows : List HistRow) : List Int :=
  (((rows.map (·.period)).dedup).insertionSort (fun a b => b ≤ a)).take 6

/-- The `history_summary` list of app.py lines 227-257. -/
def historyOf (rows : List HistRow) : List HistEntry :=
  (selectedPeriods rows).map (periodSummary rows)

/-- Shallow embedding of the history normalisation of app.py
lines 220-263 (the surfaced display name is outside the claims and is not
modelled). -/
def check_history_norm (rows : List HistRow) : HistResult :=
  if rows = [] then .noHistory else .success (historyOf rows)

/-! ## Tax-status normalisation (`check_afip`, app.py lines 303-426) -/

/-- One entry of a section's `impuesto` list. -/
structure Impuesto where
  idImpuesto : Option Int := none
  estadoImpuesto : Option (List Char) := none
  descripcionImpuesto : Option (List Char) := none
deriving DecidableEq

/-- One entry of a section's `actividad` list. -/
structure Actividad where
  descripcionActividad : Option (List Char) := none
deriving DecidableEq

/-- The `datosMonotributo` / `datosRegimenGeneral` sections;
`categoriaDescripcion` collapses
`categoriaMonotributo.get('descripcionCategoria')`. -/
structure SeccionDatos where
  impuesto : List Impuesto := []
  actividad : List Actividad := []
  categoriaDescripcion : Option (List Char) := none
deriving DecidableEq

/-- The `errorConstancia` section. -/
structure ErrConstancia where
  nombre : Option (List Char) := none
  apellido : Option (List Char) := none
  error : List (List Char) := []
deriving DecidableEq

/-- The `datosGenerales` section (only the fields the normaliser reads). -/
structure DatosGenerales where
  nombre : Option (List Char) := none
  apellido : Option (List Char) := none
  razonSocial : Option (List Char) := none
  estadoClave : Option (List Char) := none
  tipoPersona : Option (List Char) := none
deriving DecidableEq

/-- The taxpayer record returned by `getTaxpayerDetails`. An absent or
falsy (empty-dict) section is `none`. -/
structure Taxpayer where
  datosGenerales : Option DatosGenerales := none
  errorConstancia : Option ErrConstancia := none
  datosMonotributo : Option SeccionDatos := none
  datosRegimenGeneral : Option SeccionDatos := none
deriving DecidableEq

/-- Success payload of `/check_afip` (app.py lines 411-426; the claims do
not mention `domicilio`, `actividades` or the flattened `impuestos` list,
which are not modelled). -/
structure AfipSuccess where
  nombre : List Char
  estado_clave : List Char
  tipo_persona : List Char
  condicion_fiscal : List Char
  is_monotributo : Bool
  is_responsable_inscripto : Bool
  is_relacion_dependencia : Bool
  is_autonomo : Bool
  categoria_monotributo : Option (List Char)
deriving DecidableEq

/-- Normalised `/check_afip` outcome: no data, partial data
(`errorConstancia` present without `datosGenerales`), or success. -/
inductive AfipResult where
  | noData
  | parcial (nombre : List Char) (errors : List (List Char))
  | exito (s : AfipSuccess)
deriving DecidableEq

/-- Test of app.py line 342: `imp.get('idImpuesto') == 20 and
imp.get('estadoImpuesto') == 'AC'`. -/
def monoMatch (i : Impuesto) : Bool :=
  i.idImpuesto = some 20 && i.estadoImpuesto = some "AC".data

/-- Tests of app.py lines 352-357: active item whose upper-cased description
contains "IVA" and whose id is 30. -/
def riMatch (i : Impuesto) : Bool :=
  i.estadoImpuesto.getD [] = "AC".data &&
  containsSub "IVA".data (pyUpper (i.descripcionImpuesto.getD [])) &&
  i.idImpuesto = some 30

/-- Tests of app.py lines 352-359: active item whose upper-cased description
contains "AUTONOMO" or "AUTÓNOMO". -/
def autMatch (i : Impuesto) : Bool :=
  i.estadoImpuesto.getD [] = "AC".data &&
  (containsSub "AUTONOMO".data (pyUpper (i.descripcionImpuesto.getD [])) ||
   containsSub "AUTÓNOMO".data (pyUpper (i.descripcionImpuesto.getD [])))

/-- Test of app.py line 369: upper-cased activity description containing
both "RELAC" and "DEPENDENCIA". -/
def relDepMatch (a : Actividad) : Bool :=
  containsSub "RELAC".data (pyUpper (a.descripcionActividad.getD [])) &&
  containsSub "DEPENDENCIA".data (pyUpper (a.descripcionActividad.getD []))

/-- Activity list of a possibly absent section
(`taxpayer.get(section, {}).get('actividad', [])`). -/
def seccionActs (s? : Option SeccionDatos) : List Actividad :=
  (s?.map (·.actividad)).getD []

/-- Shallow embedding of the taxpayer classification of app.py
lines 303-426. `none` models a falsy `taxpayer` (the `if not taxpayer`
branch). -/
def check_afip_norm (tp? : Option Taxpayer) : AfipResult :=
  match tp? with
  | none => .noData
  | some tp =>
    match tp.errorConstancia, tp.datosGenerales with
    | some ec, none =>
      let full := pyStrip (ec.nombre.getD [] ++ ' ' :: ec.apellido.getD [])
      .parcial (if full ≠ [] then full else "N/A".data) ec.error
    | _, _ =>
      let dg := tp.datosGenerales.getD {}
      let razon := dg.razonSocial.getD []
      let fullName :=
        if razon ≠ [] then razon
        else pyStrip (dg.nombre.getD [] ++ ' ' :: dg.apellido.getD [])
      let isMono :=
        match tp.datosMonotributo with
        | some m => m.impuesto.any monoMatch
        | none => false
      let category : Option (List Char) :=
        match tp.datosMonotributo with
        | some m =>
          if m.impuesto.any monoMatch then some (m.categoriaDescripcion.getD "N/A".data)
          else none
        | none => none
      let rgImps := (tp.datosRegimenGeneral.map (·.impuesto)).getD []
      let isRI := rgImps.any riMatch
      let isAut := rgImps.any autMatch
      let isRelDep :=
        (seccionActs tp.datosMonotributo ++ seccionActs tp.datosRegimenGeneral).any relDepMatch
      let monoLabel :=
        match category with
        | some c => if c ≠ [] then "Monotributista (".data ++ c ++ ")".data
                    else "Monotributista".data
        | none => "Monotributista".data
      let conditions :=
        (if isMono then [monoLabel] else []) ++
        (if isRI then ["Responsable Inscripto".data] else []) ++
        (if isRelDep then ["Relacion de Dependencia".data] else []) ++
        (if isAut then ["Autonomo".data] else [])
      let condition :=
        if conditions = [] then
          if tp.datosMonotributo = none ∧ tp.datosRegimenGeneral = none then
            "Sin inscripciones activas — Posible empleado en relación de dependencia, jubilado o sin actividad registrada".data
          else "Sin condicion activa detectada".data
        else pyJoin " | ".data conditions
      .exito
        { nombre := fullName
          estado_clave := dg.estadoClave.getD "N/A".data
          tipo_persona := dg.tipoPersona.getD "N/A".data
          condicion_fiscal := condition
          is_monotributo := isMono
          is_responsable_inscripto := isRI
          is_relacion_dependencia := isRelDep
          is_autonomo := isAut
          categoria_monotributo := category }

/-! ## Claim-side definitions

The following definitions are written from the words of the claims in
order to compare them with the embedded source functions above. -/

/-- Claim C2's weight sequence. -/
def specWeights : List Nat := [5, 4, 3, 2, 7, 6, 5, 4, 3, 2]

/-- Claim C2's checksum recipe, as the claim words it: multiply digit i of
the base by the i-th weight, sum the products, take the remainder mod 11,
set the check digit to 11 minus the remainder, and normalise 11 to 0. -/
def specCheckDigit (base : List Char) : Nat :=
  let total := (List.zipWith (fun c m => (c.toNat - 48) * m) base specWeights).sum
  let r := total % 11
  if 11 - r = 11 then 0 else 11 - r

/-- Claim C2's derivation for a 7-8 digit national id: left-pad to 8
digits, pick the prefix from the gender ("Male"/"Female" mean that the
upper-cased gender string is "M"/"F", cf. C10), compute the check digit,
and when it is 10 for Male or Female retry exactly once with prefix "23",
using the retry's result even if it is still 10. -/
def derive_spec (dni g : List Char) : List Char :=
  let padded := List.replicate (8 - dni.length) '0' ++ dni
  let up := pyUpper g
  let pfx := if up = ['M'] then "20".data else if up = ['F'] then "27".data else "23".data
  let cd := specCheckDigit (pfx ++ padded)
  if cd = 10 ∧ (up = ['M'] ∨ up = ['F']) then
    "23".data ++ padded ++ Nat.toDigits 10 (specCheckDigit ("23".data ++ padded))
  else pfx ++ padded ++ Nat.toDigits 10 cd

/-- Claim C4's per-record contributions to the maximum: the parsed severity
field, a missing field contributing the default 1, an unparseable value
skipped. -/
def claimContribs (rows : List ScoreRow) : List Int :=
  rows.filterMap (fun r => pyInt? ((r.situacion?).getD (.int 1)))

/-- The maximum exactly as claim C4 words it: the maximum of the records'
severity contributions. -/
def claimMaxSeverity (rows : List ScoreRow) : Option Int :=
  (claimContribs rows).max?

/-- Amended maximum for C4: the maximum of 0 and the contributions. -/
def specMaxSeverity (rows : List ScoreRow) : Int :=
  max 0 ((claimMaxSeverity rows).getD 0)

/-- Claim C7's period formatting: a YYYYMM identifier whose rendering has
exactly 6 digits becomes "YYYY-MM"; anything else passes through. -/
def specFormat (p : Int) : List Char :=
  let s := intStr p
  if s.length = 6 then s.take 4 ++ "-".data ++ s.drop 4 else s

/-- Count of distinct reporting entities among the rows of one period, as
claim C5's spec-side `PeriodSummary` describes it. -/
def distinctEntities (rows : List HistRow) (p : Int) : Nat :=
  (((rowsInPeriod rows p).map (·.entidad)).dedup).length

/-- The full statement verified for claim C6 (amended): the classification
of every debtor-registry response shape, the 404 and empty-table cases
counting as valid no-data outcomes (HTTP 200), other status codes as
upstream errors (HTTP 500) whose detail is the joined message list when
messages exist and a rendering of the raw status object otherwise, and any
other shape as an unexpected-shape server error. -/
def ScoreClassifyProp : Prop :=
  (check_score_norm (.frame []) = .noData ∧
     scoreHttpStatus (check_score_norm (.frame [])) = 200) ∧
  (∀ d : BcraDict, d.status?.getD 0 = 404 →
     check_score_norm (.dict d) = .noData ∧
       scoreHttpStatus (check_score_norm (.dict d)) = 200) ∧
  (∀ d : BcraDict, d.status?.getD 0 ≠ 404 →
     check_score_norm (.dict d) =
       .upstreamError (d.status?.getD 0)
         (if d.errorMessages?.getD [] ≠ [] then
            .joined (pyJoin "; ".data (d.errorMessages?.getD []))
          else .reprOfDict d) ∧
       scoreHttpStatus (check_score_norm (.dict d)) = 500) ∧
  (∀ t, check_score_norm (.other t) = .unexpectedShape t ∧
     scoreHttpStatus (check_score_norm (.other t)) = 500)

/-- The full statement verified for claim C7: on a non-empty history frame
the normalisation succeeds with one summary per selected period; the
selected periods are the distinct periods, at most 6 of them, in strictly
descending order; each summary's period label follows the claim's
formatting rule. Per period: a column mixing numeric and string cells
makes pandas raise, so worst severity / total amount default to 0; an
all-numeric amount column gives the exact sum; an all-string situation
column gives the `int` parse of its lexicographic maximum defaulted to 0,
and an all-string amount column the `float` parse of its concatenation
defaulted to 0; on an all-integer situation column the worst severity is
one of the column's values and bounds them all. -/
def HistoryClaimProp (rows : List HistRow) : Prop :=
  check_history_norm rows = .success (historyOf rows) ∧
  historyOf rows = (selectedPeriods rows).map (periodSummary rows) ∧
  (historyOf rows).length = min ((rows.map (·.period)).dedup.length) 6 ∧
  (8 ≤ (rows.map (·.period)).dedup.length → (historyOf rows).length = 6) ∧
  List.Pairwise (fun a b => b < a) (selectedPeriods rows) ∧
  (∀ p ∈ selectedPeriods rows,
     (periodSummary rows p).period = specFormat p ∧
     (((rowsInPeriod rows p).map (·.situacion)).any PyVal.isNum = true ∧
      ((rowsInPeriod rows p).map (·.situacion)).any PyVal.isStr = true →
        (periodSummary rows p).worst_situation = 0) ∧
     (((rowsInPeriod rows p).map (·.monto)).any PyVal.isNum = true ∧
      ((rowsInPeriod rows p).map (·.monto)).any PyVal.isStr = true →
        (periodSummary rows p).total_debt = 0) ∧
     (((rowsInPeriod rows p).map (·.monto)).all PyVal.isNum = true →
        (periodSummary rows p).total_debt =
          (((rowsInPeriod rows p).map (·.monto)).map PyVal.toQ).sum) ∧
     (∀ v vt, (rowsInPeriod rows p).map (·.situacion) = v :: vt →
        (v :: vt).all PyVal.isStr = true →
        (periodSummary rows p).worst_situation =
          (pyIntOfStr? (pyStrMax v.strVal (vt.map PyVal.strVal))).getD 0) ∧
     (((rowsInPeriod rows p).map (·.monto)).all PyVal.isStr = true →
        (periodSummary rows p).total_debt =
          (pyFloatOfStr?
            ((((rowsInPeriod rows p).map (·.monto)).map PyVal.strVal).foldl (· ++ ·) [])).getD 0) ∧
     ((∀ r ∈ rowsInPeriod rows p, ∃ n : Int, r.situacion = PyVal.int n) →
        PyVal.int (periodSummary rows p).worst_situation ∈
          (rowsInPeriod rows p).map (·.situacion) ∧
        ∀ r ∈ rowsInPeriod rows p, ∀ n : Int,
          r.situacion = PyVal.int n → n ≤ (periodSummary rows p).worst_situation))

/-- Descending comparison used by `selectedPeriods` is total. -/
instance : IsTotal Int (fun a b => b ≤ a) := ⟨fun a b => le_total b a⟩

/-- Descending comparison used by `selectedPeriods` is transitive. -/
instance : IsTrans Int (fun a b => b ≤ a) := ⟨fun _ _ _ h1 h2 => le_trans h2 h1⟩

/-- A history frame with eight distinct periods, used as the C7 witness. -/
def histSample : List HistRow :=
  (List.range 8).map (fun i => ⟨202401 + i, .int 1, .int 0, "E".data⟩)

/-- Whether an outcome is a success whose simplified-regime flag is set. -/
def isMonotributoFlag : AfipResult → Bool
  | .exito s => s.is_monotributo
  | _ => false

/-! ## Helper lemmas -/

lemma digit_of_pySpace {c : Char} (h : isPySpace c = true) : c.isDigit = false := by
  simp only [isPySpace, Bool.or_eq_true, decide_eq_true_eq] at h
  rcases h with ((((rfl | rfl) | rfl) | rfl) | rfl) | rfl <;> decide

lemma pySpace_of_digit {c : Char} (h : c.isDigit = true) : isPySpace c = false := by
  cases hs : isPySpace c with
  | false => rfl
  | true => rw [digit_of_pySpace hs] at h; exact absurd h (by decide)

lemma dropWhile_head_false {p : Char → Bool} {l : List Char}
    (h : ∀ c ∈ l, p c = false) : l.dropWhile p = l := by
  cases l with
  | nil => rfl
  | cons c cs => simp [List.dropWhile, h c (List.mem_cons_self c cs)]

lemma pyStrip_of_no_space {l : List Char}
    (h : ∀ c ∈ l, isPySpace c = false) : pyStrip l = l := by
  unfold pyStrip
  rw [dropWhile_head_false h, dropWhile_head_false (by
    intro c hc
    exact h c (List.mem_reverse.mp hc)), List.reverse_reverse]

lemma pyStrip_digits {l : List Char} (h : l.all Char.isDigit = true) :
    pyStrip l = l := by
  refine pyStrip_of_no_space (fun c hc => pySpace_of_digit ?_)
  exact (List.all_eq_true.mp h) c hc

lemma calculate_cuil_upper_congr {g1 g2 : List Char} (dni : List Char)
    (h1 : g1 ≠ []) (h2 : g2 ≠ []) (h : pyUpper g1 = pyUpper g2) :
    calculate_cuil dni g1 = calculate_cuil dni g2 := by
  unfold calculate_cuil
  by_cases hd : dni = []
  · simp [hd]
  · have hc1 : ¬(dni = [] ∨ g1 = []) := by simp [hd, h1]
    have hc2 : ¬(dni = [] ∨ g2 = []) := by simp [hd, h2]
    rw [h, if_neg hc1, if_neg hc2]

lemma calculate_cuil_strip_congr {d1 d2 : List Char} (g : List Char)
    (h1 : d1 ≠ []) (h2 : d2 ≠ []) (h : pyStrip d1 = pyStrip d2) :
    calculate_cuil d1 g = calculate_cuil d2 g := by
  unfold calculate_cuil
  by_cases hg : g = []
  · simp [hg]
  · have hc1 : ¬(d1 = [] ∨ g = []) := by simp [h1, hg]
    have hc2 : ¬(d2 = [] ∨ g = []) := by simp [h2, hg]
    rw [if_neg hc1, if_neg hc2, h]

/-! ## Claim C3 — 11-digit passthrough -/

/-- Claim C3, counterexample: the claim asserts the 11-digit passthrough
for every gender "including the empty gender", but app.py line 59 returns
`None` (Invalid) when `gender` is empty, before the length check at
line 67 is reached: `calculate_cuil("12345678901", "")` is Invalid, not the
input string. -/
theorem claim3_cex :
    calculate_cuil "12345678901".data "".data = CuilResult.invalid ∧
    CuilResult.invalid ≠ .taxId "12345678901".data := by
  exact ⟨rfl, by decide⟩

/-- Claim C3 (amended): for every input of 11 digits and every NON-EMPTY
gender value, `calculate_cuil` returns the input unchanged, independently
of the gender's value. -/
theorem claim3_passthrough :
    ∀ x g : List Char, g ≠ [] → x.all Char.isDigit = true → x.length = 11 →
    calculate_cuil x g = .taxId x := by
  intro x g hg hd h11
  have hne : x ≠ [] := by intro e; subst e; simp at h11
  have hs := pyStrip_digits hd
  unfold calculate_cuil
  rw [if_neg (by simp [hne, hg])]
  simp only [hs, h11]
  norm_num

/-- Witness for claim C3 at a concrete 11-digit input and two genders. -/
theorem claim3_witness :
    (("X".data : List Char) ≠ [] ∧ "12345678901".data.all Char.isDigit = true ∧
      "12345678901".data.length = 11 ∧
      calculate_cuil "12345678901".data "X".data = .taxId "12345678901".data) ∧
    calculate_cuil "12345678901".data "M".data = .taxId "12345678901".data := by
  refine ⟨⟨by decide, by decide, by decide,
    claim3_passthrough _ _ (by decide) (by decide) (by decide)⟩,
    claim3_passthrough _ _ (by decide) (by decide) (by decide)⟩

/-! ## Claim C10 — input normalisation -/

/-- Claim C10: the gender comparison is case-insensitive (app.py line 63
upper-cases it) and surrounding whitespace of the national id is stripped
(app.py line 62), exactly at the instances the claim names and for every
national id / gender respectively. -/
theorem claim10_normalization :
    (∀ dni : List Char,
       calculate_cuil dni "m".data = calculate_cuil dni "M".data ∧
       calculate_cuil dni "f".data = calculate_cuil dni "F".data) ∧
    (∀ g : List Char,
       calculate_cuil " 12345678 ".data g = calculate_cuil "12345678".data g) := by
  constructor
  · intro dni
    exact ⟨calculate_cuil_upper_congr dni (by decide) (by decide) (by decide),
      calculate_cuil_upper_congr dni (by decide) (by decide) (by decide)⟩
  · intro g
    exact calculate_cuil_strip_congr g (by decide) (by decide) (by decide)

lemma calcTotal_digits : ∀ (ms : List Nat) (cs : List Char),
    (∀ c ∈ cs, c.isDigit = true) → ms.length ≤ cs.length →
    calcTotal cs ms =
      some ((List.zipWith (fun c m => (c.toNat - 48) * m) cs ms).sum) := by
  intro ms
  induction ms with
  | nil => intro cs _ _; cases cs <;> simp [calcTotal]
  | cons m mt ih =>
    intro cs hd hl
    cases cs with
    | nil => simp at hl
    | cons c ct =>
      have hc : c.isDigit = true := hd c (List.mem_cons_self c ct)
      have hlen : mt.length ≤ ct.length := by simp at hl; omega
      have hrest := ih ct (fun x hx => hd x (List.mem_cons_of_mem c hx)) hlen
      simp [calcTotal, pyIntDigit?, hc, hrest]

lemma rawCheck_digits {base : List Char}
    (h : ∀ c ∈ base, c.isDigit = true) (hl : 10 ≤ base.length) :
    rawCheck base =
      some (11 - (List.zipWith (fun c m => (c.toNat - 48) * m) base multipliers).sum % 11) := by
  unfold rawCheck
  rw [calcTotal_digits multipliers base h (by simpa [multipliers] using hl)]
  rfl

lemma digits_dni8 {dni : List Char} (h : ∀ c ∈ dni, c.isDigit = true) :
    ∀ c ∈ List.replicate (8 - dni.length) '0' ++ dni, c.isDigit = true := by
  intro c hc
  rcases List.mem_append.mp hc with h1 | h2
  · rw [List.eq_of_mem_replicate h1]; decide
  · exact h c h2

lemma digits_append {l1 l2 : List Char} (h1 : ∀ c ∈ l1, c.isDigit = true)
    (h2 : ∀ c ∈ l2, c.isDigit = true) : ∀ c ∈ l1 ++ l2, c.isDigit = true := by
  intro c hc
  rcases List.mem_append.mp hc with h | h
  · exact h1 c h
  · exact h2 c h

lemma length_dni8 {dni : List Char} (h : dni.length ≤ 8) :
    (List.replicate (8 - dni.length) '0' ++ dni).length = 8 := by
  simp; omega

/-! ## Claim C9 — totality and Invalid characterisation -/

/-- Claim C9, counterexample: the claim asserts that `calculate_cuil`
"returns without raising" on every input that is not classified Invalid,
"including malformed (non-digit) identifier strings"; but on a non-digit
identifier of length 8 the source reaches `int(base[i])` (app.py line 90)
and raises `ValueError`: `calculate_cuil("1234567A", "M")` raises instead
of returning. -/
theorem claim9_cex :
    calculate_cuil "1234567A".data "M".data = CuilResult.exn ∧
    CuilResult.exn ≠ CuilResult.invalid := by
  exact ⟨rfl, by decide⟩

/-- Claim C9 (amended): `calculate_cuil` returns Invalid exactly when the
national id is empty, the gender is empty, or the stripped id's length is
neither 7, 8 nor 11 (in particular for lengths 6, 9 and 10); and on every
identifier consisting solely of digits it returns without raising. A
length-7 or -8 identifier containing a non-digit character raises instead
(see the counterexample). -/
theorem claim9_totality :
    ∀ dni g : List Char,
    (calculate_cuil dni g = .invalid ↔
       (dni = [] ∨ g = [] ∨
         (¬((pyStrip dni).length = 7 ∨ (pyStrip dni).length = 8) ∧
          (pyStrip dni).length ≠ 11))) ∧
    (dni.all Char.isDigit = true → calculate_cuil dni g ≠ .exn) := by
  intro dni g
  by_cases hd : dni = []
  · simp [calculate_cuil, hd]
  by_cases hg : g = []
  · simp [calculate_cuil, hd, hg]
  constructor
  · unfold calculate_cuil
    rw [if_neg (by simp [hd, hg])]
    by_cases hL : 8 < (pyStrip dni).length ∨ (pyStrip dni).length < 7
    · rw [if_pos hL]
      by_cases h11 : (pyStrip dni).length = 11
      · simp [h11, hd, hg]
      · simp [h11, hd, hg]
        omega
    · rw [if_neg hL]
      cases hrc : rawCheck
          ((if pyUpper g = ['M'] then ['2', '0']
            else if pyUpper g = ['F'] then ['2', '7'] else ['2', '3']) ++
           (List.replicate (8 - (pyStrip dni).length) '0' ++ pyStrip dni)) with
      | none => simp [hrc, hd, hg]; omega
      | some c0 =>
        simp only [hrc]
        by_cases hretry : norm11 c0 = 10 ∧ (pyUpper g = ['M'] ∨ pyUpper g = ['F']) ∧
            (if pyUpper g = ['M'] then ['2', '0']
             else if pyUpper g = ['F'] then ['2', '7'] else ['2', '3']) ≠ ['2', '3']
        · rw [if_pos hretry]
          cases hrc2 : rawCheck (['2', '3'] ++
              (List.replicate (8 - (pyStrip dni).length) '0' ++ pyStrip dni)) with
          | none => simp [hrc2, hd, hg]; omega
          | some c2 => simp [hrc2, hd, hg]; omega
        · rw [if_neg hretry]
          simp [hd, hg]
          omega
  · intro hdig
    have hs := pyStrip_digits hdig
    have hdigits : ∀ c ∈ dni, c.isDigit = true := List.all_eq_true.mp hdig
    unfold calculate_cuil
    rw [if_neg (by simp [hd, hg])]
    simp only [hs]
    by_cases hL : 8 < dni.length ∨ dni.length < 7
    · rw [if_pos hL]
      by_cases h11 : dni.length = 11 <;> simp [h11]
    · rw [if_neg hL]
      have hb : ∀ c ∈ (if pyUpper g = ['M'] then ['2', '0']
            else if pyUpper g = ['F'] then ['2', '7'] else ['2', '3']) ++
           (List.replicate (8 - dni.length) '0' ++ dni), c.isDigit = true := by
        refine digits_append ?_ (digits_dni8 hdigits)
        split_ifs <;> decide
      have hlen : 10 ≤ ((if pyUpper g = ['M'] then ['2', '0']
            else if pyUpper g = ['F'] then ['2', '7'] else ['2', '3']) ++
           (List.replicate (8 - dni.length) '0' ++ dni)).length := by
        rw [List.length_append, length_dni8 (by omega)]
        split_ifs <;> simp
      rw [rawCheck_digits hb hlen]
      have hb2 : ∀ c ∈ (['2', '3'] : List Char) ++
           (List.replicate (8 - dni.length) '0' ++ dni), c.isDigit = true :=
        digits_append (by decide) (digits_dni8 hdigits)
      have hlen2 : 10 ≤ ((['2', '3'] : List Char) ++
           (List.replicate (8 - dni.length) '0' ++ dni)).length := by
        rw [List.length_append, length_dni8 (by omega)]
        simp
      rw [rawCheck_digits hb2 hlen2]
      split_ifs <;> (try simp) <;> (try split_ifs) <;> (try simp)

/-- Witness for claim C9 at concrete inputs: a 9-digit id is Invalid, and
an 8-digit id does not raise. -/
theorem claim9_witness :
    calculate_cuil "123456789".data "M".data = CuilResult.invalid ∧
    calculate_cuil "12345678".data "M".data ≠ CuilResult.exn := by
  constructor
  · exact (claim9_totality "123456789".data "M".data).1.mpr (by decide)
  · exact (claim9_totality "12345678".data "M".data).2 (by decide)

/-! ## Claim C2 — derivation for 7-8 digit ids -/

/-- Claim C2: for every national id of 7 or 8 digits and every non-empty
gender, `calculate_cuil` returns prefix + left-zero-padded 8-digit id +
check digit computed exactly as the claim describes (weights
[5,4,3,2,7,6,5,4,3,2], mod 11, 11 minus remainder, 11 normalised to 0, one
retry with prefix "23" when the digit is 10 for Male/Female); and
`derive("5551234","F")` pads the id to "05551234" before prefixing. -/
theorem claim2_derivation :
    (∀ dni g : List Char, dni.all Char.isDigit = true →
       (dni.length = 7 ∨ dni.length = 8) → g ≠ [] →
       calculate_cuil dni g = .taxId (derive_spec dni g)) ∧
    calculate_cuil "5551234".data "F".data =
      .taxId ("27".data ++ "05551234".data ++ "0".data) := by
  constructor
  · intro dni g hdig hlen hg
    have hne : dni ≠ [] := by
      rcases hlen with h | h <;> (intro e; subst e; simp at h)
    have hdigits := List.all_eq_true.mp hdig
    have hs := pyStrip_digits hdig
    have h8 : dni.length ≤ 8 := by rcases hlen with h | h <;> omega
    have hL : ¬(8 < dni.length ∨ dni.length < 7) := by
      rcases hlen with h | h <;> omega
    have hd8 : ∀ c ∈ List.replicate (8 - dni.length) '0' ++ dni, c.isDigit = true :=
      digits_dni8 hdigits
    have hrw23 := rawCheck_digits
      (digits_append (show ∀ c ∈ (['2', '3'] : List Char), c.isDigit = true by decide) hd8)
      (by rw [List.length_append, length_dni8 h8]; simp)
    have hsc : ∀ base : List Char, specCheckDigit base =
        norm11 (11 - (List.zipWith (fun c m => (c.toNat - 48) * m) base multipliers).sum % 11) :=
      fun _ => rfl
    have e20 : "20".data = (['2', '0'] : List Char) := rfl
    have e27 : "27".data = (['2', '7'] : List Char) := rfl
    have e23 : "23".data = (['2', '3'] : List Char) := rfl
    unfold calculate_cuil derive_spec
    rw [if_neg (by simp [hne, hg])]
    simp only [hs, e20, e27, e23, hsc]
    rw [if_neg hL]
    by_cases hM : pyUpper g = ['M']
    · have hrw20 := rawCheck_digits
        (digits_append (show ∀ c ∈ (['2', '0'] : List Char), c.isDigit = true by decide) hd8)
        (by rw [List.length_append, length_dni8 h8]; simp)
      rw [hM]
      have hP : (if (['M'] : List Char) = ['M'] then (['2', '0'] : List Char)
          else if (['M'] : List Char) = ['F'] then ['2', '7'] else ['2', '3']) = ['2', '0'] := by
        decide
      rw [hP, hrw20, hrw23]
      norm_num
      simp [apply_ite CuilResult.taxId]
    · by_cases hF : pyUpper g = ['F']
      · have hrw27 := rawCheck_digits
          (digits_append (show ∀ c ∈ (['2', '7'] : List Char), c.isDigit = true by decide) hd8)
          (by rw [List.length_append, length_dni8 h8]; simp)
        rw [hF]
        have hP : (if (['F'] : List Char) = ['M'] then (['2', '0'] : List Char)
            else if (['F'] : List Char) = ['F'] then ['2', '7'] else ['2', '3']) = ['2', '7'] := by
          decide
        rw [hP, hrw27, hrw23]
        norm_num
        simp [apply_ite CuilResult.taxId]
      · have hP : (if pyUpper g = ['M'] then (['2', '0'] : List Char)
            else if pyUpper g = ['F'] then ['2', '7'] else ['2', '3']) = ['2', '3'] := by
          rw [if_neg hM, if_neg hF]
        rw [hP, hrw23]
        simp [hM, hF]
  · rfl

/-- Witness for claim C2 at a concrete 8-digit id and gender "M". -/
theorem claim2_witness :
    calculate_cuil "12345678".data "M".data =
      .taxId (derive_spec "12345678".data "M".data) ∧
    derive_spec "12345678".data "M".data = "20123456786".data := by
  exact ⟨claim2_derivation.1 "12345678".data "M".data (by decide) (by decide) (by decide),
    by decide⟩

/-! ## Claim C1 — output shape -/

lemma taxid_shape {pfx D : List Char} {c : Nat} (hp : pfx.length = 2)
    (hd : D.length = 8) (hc : c ≤ 10) :
    ((pfx ++ D ++ Nat.toDigits 10 c).length = 11 ∧
       ∃ ch : Char, (pfx ++ D ++ Nat.toDigits 10 c).drop 10 = [ch] ∧ ch.isDigit = true) ∨
    ((pfx ++ D ++ Nat.toDigits 10 c).length = 12 ∧
       (pfx ++ D ++ Nat.toDigits 10 c).drop 10 = ['1', '0']) := by
  have hpd : (pfx ++ D).length = 10 := by rw [List.length_append, hp, hd]
  have hdrop : (pfx ++ D ++ Nat.toDigits 10 c).drop 10 = Nat.toDigits 10 c := by
    have h := List.drop_left (pfx ++ D) (Nat.toDigits 10 c)
    rw [hpd] at h
    rw [List.append_assoc] at h ⊢
    exact h
  have hlen : (pfx ++ D ++ Nat.toDigits 10 c).length = 10 + (Nat.toDigits 10 c).length := by
    rw [List.append_assoc, List.length_append, List.length_append, hp, hd]
    omega
  interval_cases c <;>
    first
      | exact Or.inl ⟨by rw [hlen]; decide, ⟨_, by rw [hdrop]; rfl, by decide⟩⟩
      | exact Or.inr ⟨by rw [hlen]; decide, by rw [hdrop]; rfl⟩

lemma norm11_le {t : Nat} : norm11 (11 - t % 11) ≤ 10 := by
  have := Nat.mod_lt t (show 0 < 11 by norm_num)
  unfold norm11
  split <;> omega

/-- Claim C1, counterexample: the claim asserts every non-Invalid result has
exactly 11 characters with a check digit 0-9, never the literal 10. But for
`dni = "00000006"` and gender "X" the prefix is "23", the weighted sum is
34, the remainder 1 and the check digit 10; since the gender is neither M
nor F the retry of app.py line 101 is skipped and line 112 renders the
literal 10, producing a 12-character string. -/
theorem claim1_cex :
    calculate_cuil "00000006".data "X".data = .taxId "230000000610".data ∧
    ("230000000610".data : List Char).length = 12 := by
  exact ⟨rfl, by decide⟩

/-- Claim C1 (amended): every non-Invalid result of `calculate_cuil` is
either the stripped 11-character passthrough input, or an 11-character
string ending in one digit character, except that when the final check
digit computation yields 10 the result has 12 characters ending in "10". -/
theorem claim1_shape :
    ∀ dni g s : List Char, calculate_cuil dni g = .taxId s →
    (s = pyStrip dni ∧ s.length = 11) ∨
    (s.length = 11 ∧ ∃ ch : Char, s.drop 10 = [ch] ∧ ch.isDigit = true) ∨
    (s.length = 12 ∧ s.drop 10 = ['1', '0']) := by
  intro dni g s h
  unfold calculate_cuil at h
  by_cases hd : dni = [] ∨ g = []
  · rw [if_pos hd] at h
    exact absurd h (by simp)
  rw [if_neg hd] at h
  dsimp only at h
  by_cases hL : 8 < (pyStrip dni).length ∨ (pyStrip dni).length < 7
  · rw [if_pos hL] at h
    by_cases h11 : (pyStrip dni).length = 11
    · rw [if_pos h11] at h
      injection h with h
      left
      exact ⟨h.symm, h ▸ h11⟩
    · rw [if_neg h11] at h
      exact absurd h (by simp)
  · rw [if_neg hL] at h
    have h8 : (List.replicate (8 - (pyStrip dni).length) '0' ++ pyStrip dni).length = 8 :=
      length_dni8 (by omega)
    set D := List.replicate (8 - (pyStrip dni).length) '0' ++ pyStrip dni with hD
    set P := (if pyUpper g = ['M'] then (['2', '0'] : List Char)
              else if pyUpper g = ['F'] then ['2', '7'] else ['2', '3']) with hPdef
    have hPlen : P.length = 2 := by rw [hPdef]; split_ifs <;> rfl
    cases hrc : rawCheck (P ++ D) with
    | none => rw [hrc] at h; exact absurd h (by simp)
    | some c0 =>
      rw [hrc] at h
      dsimp only at h
      obtain ⟨t, -, hc0⟩ := Option.map_eq_some'.mp hrc
      have hcb : norm11 c0 ≤ 10 := by rw [← hc0]; exact norm11_le
      split_ifs at h with hcond
      · cases hrc2 : rawCheck (['2', '3'] ++ D) with
        | none => rw [hrc2] at h; exact absurd h (by simp)
        | some c2 =>
          rw [hrc2] at h
          dsimp only at h
          injection h with h
          obtain ⟨t2, -, hc2⟩ := Option.map_eq_some'.mp hrc2
          have hcb2 : norm11 c2 ≤ 10 := by rw [← hc2]; exact norm11_le
          right
          exact h ▸ taxid_shape (by rfl) h8 hcb2
      · injection h with h
        right
        exact h ▸ taxid_shape hPlen h8 hcb

/-- Witness for claim C1 at a concrete derivation input. -/
theorem claim1_witness :
    calculate_cuil "12345678".data "M".data = .taxId "20123456786".data ∧
    (("20123456786".data = pyStrip "12345678".data ∧ "20123456786".data.length = 11) ∨
     ("20123456786".data.length = 11 ∧
        ∃ ch : Char, "20123456786".data.drop 10 = [ch] ∧ ch.isDigit = true) ∨
     ("20123456786".data.length = 12 ∧ "20123456786".data.drop 10 = ['1', '0'])) := by
  exact ⟨rfl, claim1_shape "12345678".data "M".data "20123456786".data rfl⟩

/-! ## Claim C4 — debt-status maximum severity -/

lemma foldl_max_init (l : List Int) : ∀ a b : Int, l.foldl max (max a b) = max a (l.foldl max b) := by
  induction l with
  | nil => intro a b; rfl
  | cons c ct ih =>
    intro a b
    show ct.foldl max (max (max a b) c) = max a (ct.foldl max (max b c))
    rw [max_assoc, ih]

lemma maxSituation_foldl : ∀ (rows : List ScoreRow) (a : Int),
    rows.foldl
      (fun acc r =>
        match pyInt? ((r.situacion?).getD (.int 1)) with
        | some sit => if acc < sit then sit else acc
        | none => acc) a
      = (claimContribs rows).foldl max a := by
  intro rows
  induction rows with
  | nil => intro a; rfl
  | cons r rt ih =>
    intro a
    cases hp : pyInt? ((r.situacion?).getD (.int 1)) with
    | none =>
      simp only [claimContribs, List.filterMap_cons, hp, List.foldl_cons]
      exact ih a
    | some s =>
      simp only [claimContribs, List.filterMap_cons, hp, List.foldl_cons]
      have hmax : (if a < s then s else a) = max a s := by
        rw [max_def]; split_ifs <;> omega
      rw [hmax]
      exact ih (max a s)

lemma maxSituation_spec (rows : List ScoreRow) :
    maxSituation rows = specMaxSeverity rows := by
  unfold maxSituation specMaxSeverity claimMaxSeverity
  rw [maxSituation_foldl]
  cases hc : claimContribs rows with
  | nil => simp [List.max?]
  | cons x xt =>
    show (x :: xt).foldl max 0 = max 0 (((x :: xt).max?).getD 0)
    have : (x :: xt).max? = some (xt.foldl max x) := rfl
    rw [this]
    show xt.foldl max (max 0 x) = max 0 (xt.foldl max x)
    exact foldl_max_init xt 0 x

/-- Claim C4, counterexample: the claim states that maxSeverity equals the
maximum of the records' severity contributions, but the loop of app.py
line 161 starts its maximum at 0, so a table whose only severity is -1
reports 0 while the maximum of the contributions is -1. -/
theorem claim4_cex :
    check_score_norm (.frame [⟨some (.int (-1))⟩]) = .success [⟨some (.int (-1))⟩] 0 ∧
    claimMaxSeverity [⟨some (.int (-1))⟩] = some (-1) ∧ (0 : Int) ≠ -1 := by
  exact ⟨rfl, rfl, by decide⟩

/-- Claim C4 (amended): on every non-empty table the normalisation returns
Success with maxSeverity equal to the maximum of 0 and the records'
contributions — each record contributing its parsed severity, a missing
field the default 1, an unparseable value skipped silently — and on the
records [{situation:3},{situation:"bad"},{situation:1}] the result's
maxSeverity is 3. -/
theorem claim4_max_severity :
    (∀ rows : List ScoreRow, rows ≠ [] →
       check_score_norm (.frame rows) = .success rows (specMaxSeverity rows)) ∧
    check_score_norm
        (.frame [⟨some (.int 3)⟩, ⟨some (.str "bad".data)⟩, ⟨some (.int 1)⟩]) =
      .success [⟨some (.int 3)⟩, ⟨some (.str "bad".data)⟩, ⟨some (.int 1)⟩] 3 := by
  constructor
  · intro rows hne
    simp only [check_score_norm]
    rw [if_neg hne, maxSituation_spec]
  · rfl

/-- Witness for claim C4 on a concrete one-record table. -/
theorem claim4_witness :
    ([⟨some (.int 2)⟩] : List ScoreRow) ≠ [] ∧
    check_score_norm (.frame [⟨some (.int 2)⟩]) =
      .success [⟨some (.int 2)⟩] (specMaxSeverity [⟨some (.int 2)⟩]) ∧
    specMaxSeverity [⟨some (.int 2)⟩] = 2 := by
  exact ⟨by decide, claim4_max_severity.1 _ (by decide), by decide⟩

/-! ## Claim C6 — debt-status classification -/

/-- Claim C6, counterexample: the claim says a status object with a
non-404 code carries "the error messages joined together", but when the
message list is empty app.py line 192 falls back to `str(result)` instead
of the (empty) join. -/
theorem claim6_cex :
    check_score_norm (.dict ⟨some 500, some []⟩) =
      .upstreamError 500 (.reprOfDict ⟨some 500, some []⟩) ∧
    Details.reprOfDict ⟨some 500, some []⟩ ≠ .joined (pyJoin "; ".data []) := by
  exact ⟨rfl, by decide⟩

/-- Claim C6 (amended): empty table and 404 status object both classify as
NoData with HTTP 200 (valid clean-record outcomes, not errors); a status
object with any other code classifies as UpstreamError (HTTP 500) carrying the
code and the '; '-joined error messages when any exist, else a rendering of
the raw status object; any other shape classifies as UnexpectedShape with
HTTP 500. -/
theorem claim6_classification : ScoreClassifyProp := by
  refine ⟨⟨rfl, rfl⟩, ?_, ?_, ?_⟩
  · intro d hd
    refine ⟨?_, ?_⟩ <;> (simp only [check_score_norm]; rw [if_pos hd]; try rfl)
  · intro d hd
    refine ⟨?_, ?_⟩ <;> (simp only [check_score_norm]; rw [if_neg hd]; try rfl)
  · intro t
    exact ⟨rfl, rfl⟩

/-- Witness for claim C6 at concrete status objects. -/
theorem claim6_witness :
    (check_score_norm (.dict ⟨some 404, some ["x".data]⟩) = .noData) ∧
    (check_score_norm (.dict ⟨some 500, some ["boom".data]⟩) =
       .upstreamError 500 (.joined "boom".data)) ∧
    scoreHttpStatus (check_score_norm (.dict ⟨some 500, some ["boom".data]⟩)) = 500 := by
  have h404 := claim6_classification.2.1 ⟨some 404, some ["x".data]⟩ (by decide)
  have h500 := claim6_classification.2.2.1 ⟨some 500, some ["boom".data]⟩ (by decide)
  refine ⟨h404.1, ?_, h500.2⟩
  rw [h500.1]
  decide

/-! ## Claim C5 — history entity count -/

/-- Claim C5, counterexample: the claim requires num_entities to equal the
count of distinct reporting entities even when one entity reports several
rows in one period; app.py line 246 counts rows (`len(period_data)`), so a
period with two rows of the same entity reports num_entities = 2 while the
distinct count is 1. -/
theorem claim5_cex :
    check_history_norm
        [⟨202401, .int 1, .int 100, "A".data⟩, ⟨202401, .int 2, .int 50, "A".data⟩] =
      .success [periodSummary
        [⟨202401, .int 1, .int 100, "A".data⟩, ⟨202401, .int 2, .int 50, "A".data⟩] 202401] ∧
    (periodSummary
        [⟨202401, .int 1, .int 100, "A".data⟩, ⟨202401, .int 2, .int 50, "A".data⟩]
        202401).num_entities = 2 ∧
    distinctEntities
        [⟨202401, .int 1, .int 100, "A".data⟩, ⟨202401, .int 2, .int 50, "A".data⟩]
        202401 = 1 ∧
    (2 : Nat) ≠ 1 := by
  exact ⟨rfl, by decide, by decide, by decide⟩

/-- Claim C5 (amended): in every period summary num_entities equals the
number of rows of that period; it equals the count of distinct reporting
entities whenever the period's rows carry pairwise-distinct entities, which
is what the spec's one-row-per-(entity, period) data model stipulates. -/
theorem claim5_num_entities :
    ∀ (rows : List HistRow) (p : Int),
    (periodSummary rows p).num_entities = (rowsInPeriod rows p).length ∧
    (((rowsInPeriod rows p).map (·.entidad)).Nodup →
       (periodSummary rows p).num_entities = distinctEntities rows p) := by
  intro rows p
  refine ⟨rfl, ?_⟩
  intro h
  show (rowsInPeriod rows p).length = distinctEntities rows p
  unfold distinctEntities
  rw [List.dedup_eq_self.mpr h, List.length_map]

/-- Witness for claim C5 on a period with two distinct entities. -/
theorem claim5_witness :
    ((rowsInPeriod [⟨202401, .int 1, .int 5, "A".data⟩, ⟨202401, .int 2, .int 7, "B".data⟩]
        202401).map (·.entidad)).Nodup ∧
    (periodSummary [⟨202401, .int 1, .int 5, "A".data⟩, ⟨202401, .int 2, .int 7, "B".data⟩]
        202401).num_entities =
      distinctEntities [⟨202401, .int 1, .int 5, "A".data⟩, ⟨202401, .int 2, .int 7, "B".data⟩]
        202401 := by
  exact ⟨by decide, (claim5_num_entities _ _).2 (by decide)⟩

/-! ## Claim C7 — history period selection -/

lemma selectedPeriods_sorted (rows : List HistRow) :
    List.Pairwise (fun a b : Int => b < a) (selectedPeriods rows) := by
  have hsort : List.Sorted (fun a b : Int => b ≤ a)
      (((rows.map (·.period)).dedup).insertionSort (fun a b => b ≤ a)) :=
    List.sorted_insertionSort _ _
  have hnodup : (((rows.map (·.period)).dedup).insertionSort (fun a b => b ≤ a)).Nodup :=
    ((List.perm_insertionSort (fun a b : Int => b ≤ a) _).nodup_iff).mpr
      (List.nodup_dedup _)
  unfold selectedPeriods
  have hpair := hsort.sublist (List.take_sublist 6 _)
  have hnd := hnodup.sublist (List.take_sublist 6 _)
  exact List.Pairwise.imp₂ (fun a b h1 h2 => lt_of_le_of_ne h1 (fun e => h2 e.symm))
    hpair hnd

lemma selectedPeriods_length (rows : List HistRow) :
    (selectedPeriods rows).length = min ((rows.map (·.period)).dedup.length) 6 := by
  unfold selectedPeriods
  rw [List.length_take, List.length_insertionSort]
  exact Nat.min_comm _ _

lemma selectedPeriods_mem {rows : List HistRow} {p : Int}
    (hp : p ∈ selectedPeriods rows) : p ∈ rows.map (·.period) := by
  unfold selectedPeriods at hp
  have h1 := (List.take_sublist 6 _).subset hp
  have h2 := (List.perm_insertionSort (fun a b : Int => b ≤ a) _).mem_iff.mp h1
  exact List.mem_dedup.mp h2

lemma rowsInPeriod_ne_nil {rows : List HistRow} {p : Int}
    (hp : p ∈ rows.map (·.period)) : rowsInPeriod rows p ≠ [] := by
  obtain ⟨r, hr, hper⟩ := List.mem_map.mp hp
  intro h
  have hmem : r ∈ rowsInPeriod rows p := List.mem_filter.mpr ⟨hr, by simp [hper]⟩
  rw [h] at hmem
  exact absurd hmem (List.not_mem_nil r)

lemma ratTrunc_intCast (n : Int) : ratTrunc ((n : Int) : ℚ) = n := by
  unfold ratTrunc
  split_ifs with h
  · exact_mod_cast Int.floor_intCast n
  · rw [← Int.cast_neg, Int.floor_intCast]
    ring

lemma isNum_false_of_isStr {v : PyVal} (h : v.isStr = true) : v.isNum = false := by
  cases v <;> simp_all [PyVal.isNum, PyVal.isStr]

lemma isStr_false_of_isNum {v : PyVal} (h : v.isNum = true) : v.isStr = false := by
  cases v <;> simp_all [PyVal.isNum, PyVal.isStr]

lemma all_isNum_false_of_any_isStr {l : List PyVal} (h : l.any PyVal.isStr = true) :
    l.all PyVal.isNum = false := by
  obtain ⟨x, hx, hs⟩ := List.any_eq_true.mp h
  rw [Bool.eq_false_iff]
  intro hall
  have hv := (List.all_eq_true.mp hall) x hx
  rw [isNum_false_of_isStr hs] at hv
  exact absurd hv (by decide)

lemma all_isStr_false_of_any_isNum {l : List PyVal} (h : l.any PyVal.isNum = true) :
    l.all PyVal.isStr = false := by
  obtain ⟨x, hx, hs⟩ := List.any_eq_true.mp h
  rw [Bool.eq_false_iff]
  intro hall
  have hv := (List.all_eq_true.mp hall) x hx
  rw [isStr_false_of_isNum hs] at hv
  exact absurd hv (by decide)

lemma all_isNum_false_of_all_isStr {v : PyVal} {vt : List PyVal}
    (h : (v :: vt).all PyVal.isStr = true) : (v :: vt).all PyVal.isNum = false := by
  refine all_isNum_false_of_any_isStr (List.any_eq_true.mpr ⟨v, List.mem_cons_self v vt, ?_⟩)
  exact (List.all_eq_true.mp h) v (List.mem_cons_self v vt)

lemma int_col_max : ∀ (vs : List PyVal) (v0 : PyVal),
    (∀ v ∈ v0 :: vs, ∃ n : Int, v = .int n) →
    ∃ M : Int, (vs.map PyVal.toQ).foldl max v0.toQ = (M : ℚ) ∧
      PyVal.int M ∈ v0 :: vs ∧
      (∀ v ∈ v0 :: vs, ∀ n : Int, v = .int n → n ≤ M) := by
  intro vs
  induction vs with
  | nil =>
    intro v0 h
    obtain ⟨n, rfl⟩ := h v0 (List.mem_cons_self _ _)
    refine ⟨n, rfl, List.mem_cons_self _ _, ?_⟩
    intro v hv n' hv'
    rw [List.mem_singleton] at hv
    subst hv
    injection hv' with e
    omega
  | cons v1 vt ih =>
    intro v0 h
    obtain ⟨n0, rfl⟩ := h v0 (List.mem_cons_self _ _)
    obtain ⟨n1, rfl⟩ := h v1 (List.mem_cons_of_mem _ (List.mem_cons_self _ _))
    have hcast : max (PyVal.toQ (.int n0)) (PyVal.toQ (.int n1)) =
        (PyVal.int (max n0 n1)).toQ := by
      show max ((n0 : Int) : ℚ) ((n1 : Int) : ℚ) = ((max n0 n1 : Int) : ℚ)
      exact (Int.cast_max).symm
    have hall : ∀ v ∈ PyVal.int (max n0 n1) :: vt, ∃ n : Int, v = .int n := by
      intro v hv
      rcases List.mem_cons.mp hv with rfl | hv
      · exact ⟨max n0 n1, rfl⟩
      · exact h v (List.mem_cons_of_mem _ (List.mem_cons_of_mem _ hv))
    obtain ⟨M, hfold, hmem, hbound⟩ := ih (PyVal.int (max n0 n1)) hall
    have hmaxle : max n0 n1 ≤ M :=
      hbound _ (List.mem_cons_self _ _) _ rfl
    refine ⟨M, ?_, ?_, ?_⟩
    · show (vt.map PyVal.toQ).foldl max (max (PyVal.toQ (.int n0)) (PyVal.toQ (.int n1))) = _
      rw [hcast]
      exact hfold
    · rcases List.mem_cons.mp hmem with he | hv
      · injection he with he
        rcases max_choice n0 n1 with h0 | h1
        · rw [he, h0]
          exact List.mem_cons_self _ _
        · rw [he, h1]
          exact List.mem_cons_of_mem _ (List.mem_cons_self _ _)
      · exact List.mem_cons_of_mem _ (List.mem_cons_of_mem _ hv)
    · intro v hv n hn
      rcases List.mem_cons.mp hv with rfl | hv
      · injection hn with hn
        omega
      rcases List.mem_cons.mp hv with rfl | hv
      · injection hn with hn
        omega
      · exact hbound v (List.mem_cons_of_mem _ hv) n hn

/-- Claim C7: on every non-empty history frame the normalisation returns
the summaries of the distinct periods, at most 6 of them (exactly 6 when
there are at least 8), in strictly descending order; each period label is
"YYYY-MM" when the identifier renders with exactly 6 digits and unchanged
otherwise; worst severity and total amount default to 0 on parse failure,
the total is the exact column sum on a numeric column, and on an
all-integer situation column the worst severity is a column value bounding
all the others. -/
theorem claim7_history : ∀ rows : List HistRow, rows ≠ [] → HistoryClaimProp rows := by
  intro rows hne
  unfold HistoryClaimProp
  refine ⟨?_, rfl, ?_, ?_, selectedPeriods_sorted rows, ?_⟩
  · simp only [check_history_norm]
    rw [if_neg hne]
  · show (historyOf rows).length = _
    unfold historyOf
    rw [List.length_map, selectedPeriods_length]
  · intro h8
    show (historyOf rows).length = 6
    unfold historyOf
    rw [List.length_map, selectedPeriods_length]
    omega
  · intro p hp
    have hmem := selectedPeriods_mem hp
    have hpd := rowsInPeriod_ne_nil hmem
    refine ⟨?_, ?_, ?_, ?_, ?_, ?_, ?_⟩
    · show (periodSummary rows p).period = specFormat p
      simp only [periodSummary, formatPeriod, specFormat]
      split_ifs <;> simp [List.append_assoc]
    · rintro ⟨hnum, hstr⟩
      cases hvs : (rowsInPeriod rows p).map (·.situacion) with
      | nil => rw [hvs] at hnum; simp at hnum
      | cons v vt =>
        rw [hvs] at hnum hstr
        show (periodSummary rows p).worst_situation = 0
        simp [periodSummary, colMax?, hvs, all_isNum_false_of_any_isStr hstr,
          all_isStr_false_of_any_isNum hnum]
    · rintro ⟨hnum, hstr⟩
      show (periodSummary rows p).total_debt = 0
      simp [periodSummary, colTotal?, all_isNum_false_of_any_isStr hstr,
        all_isStr_false_of_any_isNum hnum]
    · intro htrue
      show (periodSummary rows p).total_debt = _
      simp [periodSummary, colTotal?, htrue]
    · intro v vt hvs hstr
      show (periodSummary rows p).worst_situation = _
      simp [periodSummary, colMax?, hvs, all_isNum_false_of_all_isStr hstr, hstr, pyInt?]
    · intro hstr
      cases hvs : (rowsInPeriod rows p).map (·.monto) with
      | nil =>
        have hemp : pyFloatOfStr? ([] : List Char) = none := by rfl
        show (periodSummary rows p).total_debt = _
        simp [periodSummary, colTotal?, hvs, hemp]
      | cons v vt =>
        rw [hvs] at hstr
        show (periodSummary rows p).total_debt = _
        simp [periodSummary, colTotal?, hvs, all_isNum_false_of_all_isStr hstr, hstr]
    · intro hint
      cases hvs : (rowsInPeriod rows p).map (·.situacion) with
      | nil => exact absurd (List.map_eq_nil_iff.mp hvs) hpd
      | cons v vt =>
        have hall : ∀ v' ∈ v :: vt, ∃ n : Int, v' = .int n := by
          intro v' hv'
          rw [← hvs] at hv'
          obtain ⟨r, hr, he⟩ := List.mem_map.mp hv'
          obtain ⟨n, hn⟩ := hint r hr
          exact ⟨n, by rw [← he, hn]⟩
        obtain ⟨M, hfold, hmemM, hbound⟩ := int_col_max vt v hall
        have hnum : (v :: vt).all PyVal.isNum = true := by
          rw [List.all_eq_true]
          intro x hx
          obtain ⟨n, rfl⟩ := hall x hx
          rfl
        have hws : (periodSummary rows p).worst_situation = M := by
          show ((colMax? ((rowsInPeriod rows p).map (·.situacion))).bind pyInt?).getD 0 = M
          rw [hvs]
          have hcm : colMax? (v :: vt) =
              some (.num ((vt.map PyVal.toQ).foldl max v.toQ)) := by
            simp [colMax?, hnum]
          rw [hcm, hfold]
          simp [pyInt?, ratTrunc_intCast]
        constructor
        · rw [hws]
          exact hmemM
        · intro r hr n hn
          rw [hws]
          refine hbound r.situacion ?_ n hn
          rw [← hvs]
          exact List.mem_map_of_mem _ hr

/-- Witness for claim C7 on a concrete frame with eight distinct periods. -/
theorem claim7_witness : histSample ≠ [] ∧ HistoryClaimProp histSample := by
  exact ⟨by decide, claim7_history histSample (by decide)⟩

/-! ## Claim C8 — monotributo detection -/

lemma beginsWith_self_append : ∀ n t : List Char, beginsWith n (n ++ t) = true := by
  intro n t
  induction n with
  | nil => rfl
  | cons c cs ih => simp [beginsWith, ih]

lemma beginsWith_append_of {n l : List Char} (t : List Char)
    (hb : beginsWith n l = true) : beginsWith n (l ++ t) = true := by
  induction n generalizing l with
  | nil => rfl
  | cons c cs ih =>
    cases l with
    | nil => simp [beginsWith] at hb
    | cons d ds =>
      simp only [beginsWith, Bool.and_eq_true] at hb ⊢
      exact ⟨hb.1, ih hb.2⟩

lemma containsSub_of_begins {n h : List Char} (hb : beginsWith n h = true) :
    containsSub n h = true := by
  cases h with
  | nil => exact hb
  | cons c hs => simp [containsSub, hb]

lemma contains_mono_join (label : List Char) (rest : List (List Char))
    (hb : beginsWith "Monotributista".data label = true) :
    containsSub "Monotributista".data (pyJoin " | ".data (label :: rest)) = true := by
  cases rest with
  | nil => exact containsSub_of_begins hb
  | cons r rt =>
    show containsSub _ (label ++ " | ".data ++ pyJoin " | ".data (r :: rt)) = true
    rw [List.append_assoc]
    exact containsSub_of_begins (beginsWith_append_of _ hb)

/-- Claim C8, counterexample: the claim quantifies over every record
containing an active monotributo item (tax id 20, status "AC"), but a
record that also carries `errorConstancia` and no `datosGenerales` is
classified Partial by app.py line 307 before the monotributo scan runs, so
no simplified-regime flag is set for it. -/
theorem claim8_cex :
    check_afip_norm (some
        { errorConstancia := some { nombre := some "J".data },
          datosMonotributo := some
            { impuesto := [{ idImpuesto := some 20, estadoImpuesto := some "AC".data }] } }) =
      .parcial "J".data [] ∧
    ([({ idImpuesto := some 20, estadoImpuesto := some "AC".data } : Impuesto)].any monoMatch) = true ∧
    isMonotributoFlag (check_afip_norm (some
        { errorConstancia := some { nombre := some "J".data },
          datosMonotributo := some
            { impuesto := [{ idImpuesto := some 20, estadoImpuesto := some "AC".data }] } })) =
      false := by
  exact ⟨rfl, by decide, rfl⟩

/-- Claim C8 (amended): for every taxpayer record that reaches the full
classification path (it is not the Partial case of an `errorConstancia`
without `datosGenerales`) and whose monotributo section contains a tax item
with id 20 and status "AC", the normalisation succeeds with the
simplified-regime flag set and the section's category label captured, and
when there is no general-regime data the condition label contains
"Monotributista". -/
theorem claim8_monotributo :
    ∀ (tp : Taxpayer) (m : SeccionDatos),
    tp.datosMonotributo = some m →
    (∃ i ∈ m.impuesto, i.idImpuesto = some 20 ∧ i.estadoImpuesto = some "AC".data) →
    ¬(tp.errorConstancia.isSome = true ∧ tp.datosGenerales = none) →
    ∃ s : AfipSuccess, check_afip_norm (some tp) = .exito s ∧
      s.is_monotributo = true ∧
      s.categoria_monotributo = some (m.categoriaDescripcion.getD "N/A".data) ∧
      (tp.datosRegimenGeneral = none →
         containsSub "Monotributista".data s.condicion_fiscal = true) := by
  intro tp m hm hitem hguard
  have hany : m.impuesto.any monoMatch = true := by
    obtain ⟨i, hi, h20, hac⟩ := hitem
    rw [List.any_eq_true]
    exact ⟨i, hi, by simp [monoMatch, h20, hac]⟩
  have hmne : tp.datosMonotributo ≠ none := by rw [hm]; simp
  simp only [check_afip_norm]
  rcases hec : tp.errorConstancia with _ | ec <;>
    rcases hdg : tp.datosGenerales with _ | dg
  case some.none => exact absurd ⟨by rw [hec]; rfl, hdg⟩ hguard
  all_goals (
    rw [hm]
    refine ⟨_, rfl, hany, ?_, ?_⟩
    · simp [hany]
    · intro hrg
      rw [hrg]
      simp [hany]
      apply contains_mono_join
      by_cases hcat : m.categoriaDescripcion.getD ['N', '/', 'A'] = []
      · rw [if_pos hcat]
        decide
      · rw [if_neg hcat]
        exact beginsWith_append_of _
          (show beginsWith "Monotributista".data "Monotributista (".data = true by decide))

/-- Witness for claim C8 on a concrete monotributo-only record. -/
theorem claim8_witness :
    ∃ s : AfipSuccess,
      check_afip_norm (some
          { datosMonotributo := some
              { impuesto := [{ idImpuesto := some 20, estadoImpuesto := some "AC".data }],
                categoriaDescripcion := some "A".data } }) = .exito s ∧
      s.is_monotributo = true ∧
      s.categoria_monotributo = some
        (((some "A".data : Option (List Char))).getD "N/A".data) ∧
      ((none : Option SeccionDatos) = none →
         containsSub "Monotributista".data s.condicion_fiscal = true) := by
  exact claim8_monotributo
    { datosMonotributo := some
        { impuesto := [{ idImpuesto := some 20, estadoImpuesto := some "AC".data }],
          categoriaDescripcion := some "A".data } }
    { impuesto := [{ idImpuesto := some 20, estadoImpuesto := some "AC".data }],
      categoriaDescripcion := some "A".data }
    rfl
    ⟨{ idImpuesto := some 20, estadoImpuesto := some "AC".data },
      List.mem_singleton.mpr rfl, rfl, rfl⟩
    (by simp)

end Comarfin


